import Mathlib

/-!
Verification of the Pintos boot orchestrator (`src/kroyounho/pintos.c`)
against its design specification.

The file shallowly embeds the boot core: the address-space bootstrapper
`paging_init`, the boot-argument extractor `read_command_line`, the option
scanner `parse_options`, and the action dispatcher `run_actions`, and proves
(or refutes) the specified properties about them.

Machine integers are modelled as `Nat` (all the quantities involved are
non-negative and no arithmetic here overflows 64 bits except where an
explicit `% 2 ^ w` appears).  Fallible code returns `Except`, with the
`PANIC` diagnostic text carried in the error.  Bytes of the loader window
are modelled as `Char` (the window holds 8-bit text; only NUL, `'-'`, `'='`
and letters/digits are ever inspected).
-/

namespace PintosBoot

/-! ## Page-table constants

`threads/pte.h` and `threads/mmu.h` are not part of this repository snapshot;
only `pintos.c` is.  The constants below are therefore modelled from the
spec's data model ("PageTableEntry: {physical frame address, Present bit,
Writable bit}") together with the standard x86-64 bit layout they denote. -/

/-- Present bit of a page-table entry (`PTE_P`), bit 0. -/
def PTE_P : Nat := 1

/-- Writable bit of a page-table entry (`PTE_W`), bit 1. -/
def PTE_W : Nat := 2

/-- Page size in bytes (`PGSIZE`). -/
def PGSIZE : Nat := 4096

/-- Modelled from the spec: "Identity offset mapping: virtual address =
physical address + constant base" (`KERN_BASE` of `threads/mmu.h`, which is
not under `src/`). -/
def KERN_BASE : Nat := 0x8004000000

/-- Function `ptov`: translate a physical address to its kernel virtual address.
Modelled from the spec's identity offset mapping. -/
def ptov (pa : Nat) : Nat := pa + KERN_BASE

/-! ## Address-space bootstrapper (`paging_init`, pintos.c lines 118-137)

```c
static void paging_init (uint64_t mem_end) {
  uint64_t *pml4;
  pml4 = base_pml4 = palloc_get_page (PAL_ASSERT | PAL_ZERO);
  extern char start, _end_kernel_text;
  for (uint64_t pa = 0; pa < mem_end; pa += PGSIZE) {
    uint64_t va = (uint64_t) ptov (pa);
    int perm = PTE_P | PTE_W;
    if ((uint64_t) &start <= va && va < (uint64_t) &_end_kernel_text)
      perm &= ~PTE_W;
    uint64_t *pte = pml4e_walk (pml4, va, 1);
    if (pte != NULL)
      *pte = pa | perm;
  }
  pml4_activate (0);
}
```

The linker symbols `start` / `_end_kernel_text` become parameters `ks` / `ke`.
`pml4e_walk (pml4, va, 1)` returns the leaf-entry slot for `va`, or `NULL`
when allocating an intermediate table level fails; whether that allocation
succeeds depends on external allocator state, modelled here by an oracle
`walkFails : Nat → Bool` indexed by the virtual address.  The root-table
allocation uses `PAL_ASSERT`: its failure panics inside `palloc_get_page`
(external code; the diagnostic text is modelled from the spec's
"unavailability is fatal"). -/

/-- The leaf entry `pa | perm` that the loop body writes for a page at
physical address `pa`: `perm = PTE_P | PTE_W`, with `PTE_W` cleared
(`perm &= ~PTE_W`, two's-complement mask `0xFFFFFFFD` on a 32-bit `int`)
when the virtual address lies in the kernel text range `[ks, ke)`. -/
def pteFor (ks ke pa : Nat) : Nat :=
  let va := ptov pa
  let perm := PTE_P ||| PTE_W
  let perm := if ks ≤ va ∧ va < ke then perm &&& 0xFFFFFFFD else perm
  pa ||| perm

/-- The association `virtual address ↦ leaf entry` built by the
`for (pa = 0; pa < mem_end; pa += PGSIZE)` loop: one entry per page-aligned
`pa < memEnd` whose table walk succeeded; a failed walk (`pte == NULL`)
writes nothing for that address. -/
def pagingInitEntries (walkFails : Nat → Bool) (memEnd ks ke : Nat) :
    List (Nat × Nat) :=
  (List.range ((memEnd + PGSIZE - 1) / PGSIZE)).filterMap fun k =>
    let pa := k * PGSIZE
    if walkFails (ptov pa) then none else some (ptov pa, pteFor ks ke pa)

/-- Function `paging_init`.  Here `rootAllocOk` is the success of the `PAL_ASSERT` root
allocation (failure panics inside the allocator, before the loop runs);
on success the function builds the full mapping and activates it
(`pml4_activate` has no observable effect in this model). -/
def paging_init (rootAllocOk : Bool) (walkFails : Nat → Bool)
    (memEnd ks ke : Nat) : Except String (List (Nat × Nat)) :=
  if rootAllocOk then .ok (pagingInitEntries walkFails memEnd ks ke)
  else .error "PANIC: palloc_get: out of pages"

/-! ## Boot-argument extractor (`read_command_line`, pintos.c lines 139-165)

```c
static char **read_command_line (void) {
  static char *argv[LOADER_ARGS_LEN / 2 + 1];
  char *p = ptov (LOADER_ARGS);
  const char *end = p + LOADER_ARGS_LEN;
  int argc = *(uint32_t *) ptov (LOADER_ARG_CNT);
  for (i = 0; i < argc; i++) {
    if (p >= end)
      PANIC ("command line arguments overflow");
    argv[i] = p;
    p += strnlen (p, end - p) + 1;
  }
  argv[argc] = NULL;
  ...echo tokens...
  return argv;
}
```

The window contents (the `LOADER_ARGS_LEN` bytes at `LOADER_ARGS`) become a
`List Char` `w`; the externally supplied element count becomes `argc`; the
produced `argv` pointers become byte offsets into `w` (the trailing `NULL`
slot is implicit in the list's end).  The console echo has no effect on the
result and is not modelled. -/

/-- The NUL byte. -/
def NUL : Char := '\x00'

/-- Model of `strnlen (p, end - p)`: length of the string at the cursor, never
scanning past the window end (the list's end). -/
def strnlenTo : List Char → Nat
  | [] => 0
  | c :: cs => if c = NUL then 0 else strnlenTo cs + 1

/-- The extraction loop of `read_command_line`: `p` is the cursor offset,
the counter is the number of elements still to read.  Yields the offsets of
the parsed strings, or the overflow panic. -/
def readLoop (w : List Char) : Nat → Nat → Except String (List Nat)
  | _, 0 => .ok []
  | p, n + 1 =>
    if p ≥ w.length then .error "command line arguments overflow"
    else (readLoop w (p + strnlenTo (w.drop p) + 1) n).map fun offs => p :: offs

/-- Function `read_command_line` on a window with contents `w` and declared element
count `argc`. -/
def read_command_line (w : List Char) (argc : Nat) : Except String (List Nat) :=
  readLoop w 0 argc

/-! ## Option scanner (`parse_options`, pintos.c lines 167-196)

```c
static char **parse_options (char **argv) {
  for (; *argv != NULL && **argv == '-'; argv++) {
    char *save_ptr;
    char *name = strtok_r (*argv, "=", &save_ptr);
    char *value = strtok_r (NULL, "", &save_ptr);
    if (!strcmp (name, "-h"))
      usage ();
    else if (!strcmp (name, "-q"))
      power_off_when_done = true;
    else if (!strcmp (name, "-f"))          /* #ifdef FILESYS */
      format_filesys = true;
    else if (!strcmp (name, "-rs"))
      random_init (atoi (value));
    else if (!strcmp (name, "-mlfqs"))
      thread_mlfqs = true;
    else if (!strcmp (name, "-ul"))         /* #ifdef USERPROG */
      user_page_limit = atoi (value);
    else if (!strcmp (name, "-threads-tests"))
      thread_tests = true;
    else
      PANIC ("unknown option `%s' (use -h for help)", name);
  }
  return argv;
}
```

The embedding takes the full-featured build (`FILESYS` and `USERPROG`
defined): the claims about `-f`, `-ul`, `cat` and the `thread_tests`
branch all presuppose it.

The mutable globals that option scanning writes (`power_off_when_done`,
`format_filesys`, `thread_mlfqs` of `threads/thread.h`, `user_page_limit` of
`threads/palloc.h`, and the seed passed to `random_init`) are gathered into
one record, the spec's BootConfiguration.  `user_page_limit` is a `size_t`
and the `random_init` argument an `unsigned` (32 bits), so the `int` results
of `atoi` are reduced `% 2 ^ 64` resp. `% 2 ^ 32` on assignment; the fields'
initial values live outside `src/`, so both are modelled from the spec as
optional integers ("randomSeed: optional integer, userMemoryPageLimit:
optional integer"), `none` meaning "never assigned". -/

/-- The spec's BootConfiguration record, fields named after the C globals
they gather. -/
structure BootConfig where
  power_off_when_done : Bool := false
  format_filesys : Bool := false
  thread_mlfqs : Bool := false
  thread_tests : Bool := false
  random_seed : Option Nat := none
  user_page_limit : Option Nat := none
  deriving Repr, DecidableEq

/-- Modelled from the spec: "Numeric-valued flags parse permissively;
malformed numeric text yields an unspecified numeric result" — the libc
`atoi` (not part of this repository): skip leading whitespace, an optional
sign, then take decimal digits, ignoring any trailing text; no digits give
`0`. -/
def atoiDigits : List Char → Nat → Nat
  | c :: cs, acc => if c.isDigit then atoiDigits cs (acc * 10 + (c.toNat - 48)) else acc
  | [], acc => acc

/-- Model of `atoi` on a (non-null) C string, as a mathematical integer. -/
def atoi (s : List Char) : Int :=
  match s.dropWhile (fun c => c = ' ' || c = '\t' || c = '\n' ||
      c = '\x0b' || c = '\x0c' || c = '\r') with
  | '-' :: cs => -(atoiDigits cs 0 : Int)
  | '+' :: cs => (atoiDigits cs 0 : Int)
  | cs => (atoiDigits cs 0 : Int)

/-- One recognized-name dispatch of the option loop body, applied to the
already split `name` / optional `value` of the current token.  `value` is
`none` exactly when the second `strtok_r` returned `NULL`; in that case the
`-rs` / `-ul` branches evaluate `atoi (NULL)`, a null-pointer dereference —
the fallible outcome `nullDeref` below records that the execution of the C
code is undefined there, not that some value is produced. -/
inductive OptStep where
  | apply (cfg : BootConfig)
  | help
  | panic (msg : String)
  | nullDeref
  deriving Repr, DecidableEq

/-- The `if/else` chain of the loop body (names compared by `strcmp`). -/
def applyOption (cfg : BootConfig) (name : List Char) (value : Option (List Char)) :
    OptStep :=
  if name = "-h".toList then .help
  else if name = "-q".toList then .apply { cfg with power_off_when_done := true }
  else if name = "-f".toList then .apply { cfg with format_filesys := true }
  else if name = "-rs".toList then
    match value with
    | some v => .apply { cfg with random_seed := some ((atoi v % 2 ^ 32).toNat) }
    | none => .nullDeref
  else if name = "-mlfqs".toList then .apply { cfg with thread_mlfqs := true }
  else if name = "-ul".toList then
    match value with
    | some v => .apply { cfg with user_page_limit := some ((atoi v % 2 ^ 64).toNat) }
    | none => .nullDeref
  else if name = "-threads-tests".toList then .apply { cfg with thread_tests := true }
  else .panic ("unknown option `" ++ String.mk name ++ "' (use -h for help)")

/-- The pair of `strtok_r` calls on an option token (which starts with `'-'`,
so has no leading delimiter to skip): split at the first `'='`; the value is
`none` when there is no `'='` or nothing follows it (both make the second
`strtok_r` return `NULL`). -/
def splitAtEq : List Char → List Char × Option (List Char)
  | [] => ([], none)
  | c :: cs =>
    if c = '=' then ([], if cs.isEmpty then none else some cs)
    else
      let (n, v) := splitAtEq cs
      (c :: n, v)

/-- The loop guard `*argv != NULL && **argv == '-'`: the current token exists and its first
byte is the flag marker (an empty token's first byte is its NUL). -/
def startsDash : List Char → Bool
  | c :: _ => c = '-'
  | [] => false

/-- Result of the option scan: the frozen configuration and the unconsumed
remainder, or one of the three ways the loop does not return (`usage` powers
off, `PANIC` halts, `atoi (NULL)` is undefined).  `ρ` is the representation
of the remainder (token values, or offsets into the window). -/
inductive ParseResult (ρ : Type) where
  | ok (cfg : BootConfig) (rest : ρ)
  | help
  | panic (msg : String)
  | nullDeref
  deriving Repr, DecidableEq

/-- Function `parse_options` at the token level: the argument vector as the list of
its token strings (the `NULL` terminator is the list's end).  Faithful to
the source for the values consumed, though not for the in-place `strtok_r`
write — `parse_options_mem` below embeds the same loop at the byte level to
capture that write; the two agree because each token is split at most once
and the split byte is never read again. -/
def parse_options (cfg : BootConfig) : List (List Char) → ParseResult (List (List Char))
  | [] => .ok cfg []
  | t :: rest =>
    if startsDash t then
      let (name, value) := splitAtEq t
      match applyOption cfg name value with
      | .apply cfg' => parse_options cfg' rest
      | .help => .help
      | .panic m => .panic m
      | .nullDeref => .nullDeref
    else .ok cfg (t :: rest)

/-- The string a window offset points at: bytes from the offset up to the
first NUL (and never past the window end). -/
def strAt (w : List Char) (p : Nat) : List Char :=
  (w.drop p).takeWhile (fun c => c ≠ NUL)

/-- Offset of the first `'='` in a token, if any: the byte position where
`strtok_r (*argv, "=", &save_ptr)` stores its terminating NUL. -/
def eqIndex : List Char → Option Nat
  | [] => none
  | c :: cs => if c = '=' then some 0 else (eqIndex cs).map (· + 1)

/-- Function `parse_options` at the byte level: the argument vector as offsets into
the window `w`, whose bytes `strtok_r` mutates in place (the first `'='` of
each consumed token is overwritten with NUL before the name is matched).
Returns the final window contents alongside the scan result. -/
def parse_options_mem (cfg : BootConfig) (w : List Char) :
    List Nat → List Char × ParseResult (List Nat)
  | [] => (w, .ok cfg [])
  | off :: rest =>
    let t := strAt w off
    if startsDash t then
      let w' := match eqIndex t with
        | some j => w.set (off + j) NUL
        | none => w
      let (name, value) := splitAtEq t
      match applyOption cfg name value with
      | .apply cfg' => parse_options_mem cfg' w' rest
      | .help => (w', .help)
      | .panic m => (w', .panic m)
      | .nullDeref => (w', .nullDeref)
    else (w, .ok cfg (off :: rest))

/-! ## Action dispatcher (`run_actions` / `run_task`, pintos.c lines 198-247)

```c
static void run_task (char **argv) {
  const char *task = argv[1];
  printf ("Executing '%s':\n", task);
  if (thread_tests)                      /* #ifdef USERPROG */
    run_test (task);
  else
    process_wait (process_create_initd (task));
  printf ("Execution of '%s' complete.\n", task);
}

static void run_actions (char **argv) {
  struct action { char *name; int argc; void (*function) (char **argv); };
  static const struct action actions[] = {
    {"run", 2, run_task},
    {"ls", 1, fsutil_ls},  {"cat", 2, fsutil_cat}, {"rm", 2, fsutil_rm},
    {"put", 2, fsutil_put}, {"get", 2, fsutil_get},   /* #ifdef FILESYS */
    {NULL, 0, NULL},
  };
  while (*argv != NULL) {
    const struct action *a;
    for (a = actions; ; a++)
      if (a->name == NULL)
        PANIC ("unknown action `%s' (use -h for help)", *argv);
      else if (!strcmp (*argv, a->name))
        break;
    for (i = 1; i < a->argc; i++)
      if (argv[i] == NULL)
        PANIC ("action `%s' requires %d argument(s)", *argv, a->argc - 1);
    a->function (argv);
    argv += a->argc;
  }
}
```

The handlers are external collaborators (`run_test`, `process_create_initd`
+ `process_wait`, and the `fsutil_*` routines of `filesys/fsutil.c`, none
under `src/`); the embedding records each invocation as a trace event
instead of executing it.  The argument vector is again the token list up to
the `NULL` terminator, so `argv[i] == NULL` is `i ≥ argv.length`. -/

/-- The handler capability column of the action table. -/
inductive Handler where
  | runTask | fsutilLs | fsutilCat | fsutilRm | fsutilPut | fsutilGet
  deriving Repr, DecidableEq

/-- One row of the `struct action` table (the `NULL` sentinel row is the
list's end). -/
structure ActionDesc where
  name : List Char
  argc : Nat
  fn : Handler
  deriving Repr, DecidableEq

/-- The fixed action table, in declared order, for the `FILESYS` build. -/
def actions : List ActionDesc :=
  [⟨"run".toList, 2, .runTask⟩,
   ⟨"ls".toList, 1, .fsutilLs⟩, ⟨"cat".toList, 2, .fsutilCat⟩,
   ⟨"rm".toList, 2, .fsutilRm⟩,
   ⟨"put".toList, 2, .fsutilPut⟩, ⟨"get".toList, 2, .fsutilGet⟩]

/-- The inner `for (a = actions; ; a++)` scan: first row whose name matches,
`none` when the sentinel is reached. -/
def findAction (n : List Char) : Option ActionDesc :=
  actions.find? fun a => a.name = n

/-- An invocation of an external collaborator, as observed by this core. -/
inductive TaskCall where
  | runTest (task : List Char)
  | processCreateWait (task : List Char)
  | fsutil (h : Handler) (args : List (List Char))
  deriving Repr, DecidableEq

/-- Function `run_task`: branch on the self-test flag `thread_tests` (`USERPROG`
build).  `argv[1]` is non-`NULL` whenever `run_actions` dispatches here
(arity 2 was checked); the `.getD []` default is dead in that use. -/
def run_task (thread_tests : Bool) (argv : List (List Char)) : List TaskCall :=
  let task := (argv.get? 1).getD []
  if thread_tests then [.runTest task] else [.processCreateWait task]

/-- The call `a->function (argv)`: the trace of collaborator calls a handler issues
for the queue positioned at its name token. -/
def runHandler (thread_tests : Bool) (h : Handler) (argv : List (List Char)) :
    List TaskCall :=
  match h with
  | .runTask => run_task thread_tests argv
  | h => [.fsutil h argv]

theorem findAction_argc_pos {n : List Char} {a : ActionDesc}
    (h : findAction n = some a) : 1 ≤ a.argc := by
  have hm := List.mem_of_find?_eq_some h
  fin_cases hm <;> decide

/-- Function `run_actions`: dispatch the whole queue, collecting the collaborator
trace, or halt at the first fatal condition. -/
def run_actions (thread_tests : Bool) :
    (argv : List (List Char)) → Except String (List TaskCall)
  | [] => .ok []
  | t :: rest =>
    match h : findAction t with
    | none => .error ("unknown action `" ++ String.mk t ++ "' (use -h for help)")
    | some a =>
      if (t :: rest).length < a.argc then
        .error ("action `" ++ String.mk t ++ "' requires " ++
          toString (a.argc - 1) ++ " argument(s)")
      else
        match run_actions thread_tests ((t :: rest).drop a.argc) with
        | .error m => .error m
        | .ok more => .ok (runHandler thread_tests a.fn (t :: rest) ++ more)
  termination_by argv => argv.length
  decreasing_by
    have := findAction_argc_pos h
    simp only [List.length_drop]
    simp only [List.length_cons]
    omega

/-! ## The boot sequence (`main`, pintos.c lines 61-109)

`main` is a straight-line script of subsystem calls; the embedding records
it as the ordered list of the calls `main` issues (with `USERPROG`,
`FILESYS` and `VM` all defined, the fullest build).  After `run_actions`,
`power_off` is called only when `power_off_when_done` is set, and it never
returns (`for (;;)` after the port write), so `thread_exit` is reached only
on the other branch. -/

/-- The calls issued by `main`, in program order. -/
inductive BootEvent where
  | bss_init | read_command_line | parse_options | thread_init | console_init
  | palloc_init | malloc_init | paging_init | tss_init | gdt_init
  | intr_init | timer_init | kbd_init | input_init | exception_init
  | syscall_init | thread_start | serial_init_queue | timer_calibrate
  | disk_init | filesys_init | vm_init | run_actions | power_off | thread_exit
  deriving Repr, DecidableEq

/-- The call sequence of `main`, as a function of the `power_off_when_done`
flag the option scan produced. -/
def main_trace (power_off_when_done : Bool) : List BootEvent :=
  [.bss_init, .read_command_line, .parse_options,
   .thread_init, .console_init,
   .palloc_init, .malloc_init, .paging_init,
   .tss_init, .gdt_init,
   .intr_init, .timer_init, .kbd_init, .input_init,
   .exception_init, .syscall_init,
   .thread_start, .serial_init_queue, .timer_calibrate,
   .disk_init, .filesys_init, .vm_init,
   .run_actions] ++
  (if power_off_when_done then [.power_off] else [.thread_exit])

/-! ## Helper lemmas -/

/-- A page-aligned address below memory top whose table walk succeeds gets
exactly the entry the loop body writes. -/
theorem mem_pagingInitEntries {walkFails : Nat → Bool} {memEnd ks ke pa : Nat}
    (hpg : pa % PGSIZE = 0) (hlt : pa < memEnd)
    (hwf : walkFails (ptov pa) = false) :
    (ptov pa, pteFor ks ke pa) ∈ pagingInitEntries walkFails memEnd ks ke := by
  rw [pagingInitEntries, List.mem_filterMap]
  refine ⟨pa / PGSIZE, ?_, ?_⟩
  · rw [List.mem_range]
    simp only [PGSIZE] at *
    omega
  · have hdvd : PGSIZE ∣ pa := Nat.dvd_of_mod_eq_zero hpg
    simp only [Nat.div_mul_cancel hdvd, hwf, Bool.false_eq_true, if_false]

/-- Conversely, every constructed entry keyed at `ptov pa` comes from a
successful walk at that very address. -/
theorem pagingInitEntries_walk_ok {walkFails : Nat → Bool}
    {memEnd ks ke pa : Nat} {e : Nat}
    (h : (ptov pa, e) ∈ pagingInitEntries walkFails memEnd ks ke) :
    walkFails (ptov pa) = false := by
  rw [pagingInitEntries, List.mem_filterMap] at h
  obtain ⟨k, -, hk⟩ := h
  by_cases hw : walkFails (ptov (k * PGSIZE)) = true
  · rw [if_pos hw] at hk
    exact Option.noConfusion hk
  · rw [if_neg hw] at hk
    simp only [Option.some.injEq, Prod.mk.injEq] at hk
    have : k * PGSIZE = pa := by
      have := hk.1
      simp only [ptov] at this
      omega
    subst this
    simpa using hw

/-! ## Claim C1 -/

/-- C1.  For every page-aligned physical address from 0 up to memory top
(whose intermediate-table walk succeeds), the mapping constructed by
`paging_init` holds a leaf entry at its virtual address with the Present
bit set, whose Writable bit is cleared exactly when the virtual address
falls within the kernel's executable-code range `[ks, ke)` and set
otherwise. -/
theorem claim_C1 (memEnd ks ke : Nat) (walkFails : Nat → Bool) (pa : Nat)
    (hpg : pa % PGSIZE = 0) (hlt : pa < memEnd)
    (hwf : walkFails (ptov pa) = false) :
    ∃ es, paging_init true walkFails memEnd ks ke = Except.ok es ∧
      ∃ e, (ptov pa, e) ∈ es ∧ e.testBit 0 = true ∧
        ((ks ≤ ptov pa ∧ ptov pa < ke) → e.testBit 1 = false) ∧
        (¬(ks ≤ ptov pa ∧ ptov pa < ke) → e.testBit 1 = true) := by
  have h4 : pa % 4 = 0 := by simp only [PGSIZE] at hpg; omega
  have hand : (3 : Nat) &&& 4294967293 = 1 := by decide
  refine ⟨_, rfl, pteFor ks ke pa, mem_pagingInitEntries hpg hlt hwf, ?_, ?_, ?_⟩
  · by_cases hin : ks ≤ ptov pa ∧ ptov pa < ke
    · have hpte : pteFor ks ke pa = pa ||| 1 := by
        simp [pteFor, hin, PTE_P, PTE_W, hand]
      rw [hpte, Nat.testBit_or]
      simp [Nat.testBit_to_div_mod]
    · have hpte : pteFor ks ke pa = pa ||| 3 := by
        simp [pteFor, hin, PTE_P, PTE_W]
      rw [hpte, Nat.testBit_or]
      simp [Nat.testBit_to_div_mod]
  · intro hin
    have hpte : pteFor ks ke pa = pa ||| 1 := by
      simp [pteFor, hin, PTE_P, PTE_W, hand]
    rw [hpte, Nat.testBit_or]
    simp [Nat.testBit_to_div_mod]
    omega
  · intro hin
    have hpte : pteFor ks ke pa = pa ||| 3 := by
      simp [pteFor, hin, PTE_P, PTE_W]
    rw [hpte, Nat.testBit_or]
    simp [Nat.testBit_to_div_mod]

/-- Witness for C1: memory top 8192, kernel text `[KERN_BASE,
KERN_BASE + PGSIZE)`, all walks succeeding, at physical address 0 (whose
virtual address lies in the text range). -/
theorem claim_C1_witness :
    ((0 : Nat) % PGSIZE = 0 ∧ (0 : Nat) < 8192 ∧
      (fun _ : Nat => false) (ptov 0) = false) ∧
    (∃ es, paging_init true (fun _ => false) 8192 KERN_BASE (KERN_BASE + PGSIZE) =
        Except.ok es ∧
      ∃ e, (ptov 0, e) ∈ es ∧ e.testBit 0 = true ∧
        ((KERN_BASE ≤ ptov 0 ∧ ptov 0 < KERN_BASE + PGSIZE) → e.testBit 1 = false) ∧
        (¬(KERN_BASE ≤ ptov 0 ∧ ptov 0 < KERN_BASE + PGSIZE) → e.testBit 1 = true)) :=
  ⟨⟨by decide, by decide, rfl⟩,
    claim_C1 8192 KERN_BASE (KERN_BASE + PGSIZE) (fun _ => false) 0
      (by decide) (by decide) rfl⟩

/-! ## Claim C2

The claim says a failed intermediate-level walk halts the boot with a
diagnostic.  The code does the opposite: `if (pte != NULL) *pte = pa | perm;`
silently skips the address and the loop continues; only the root-table
allocation (`PAL_ASSERT`) is fatal. -/

/-- C2 counterexample.  With memory top 8192 and a walk that fails exactly
for the first page's virtual address (`ptov 0 = KERN_BASE`), `paging_init`
does not halt: it returns the completed mapping, which still contains the
second page's entry and simply lacks the first — construction continued
past the failure. -/
theorem claim_C2_counterexample :
    (fun va => va == KERN_BASE) (ptov 0) = true ∧
    paging_init true (fun va => va == KERN_BASE) 8192 0 0 =
      Except.ok [(ptov 4096, 4096 ||| 3)] := by
  constructor
  · rfl
  · rfl

/-- C2 as amended: only a root-table allocation failure halts the boot with
a diagnostic; a failed intermediate walk at some address leaves exactly that
address unmapped while construction continues — every other page-aligned
address below memory top with a successful walk still receives its entry. -/
theorem claim_C2 (memEnd ks ke : Nat) (walkFails : Nat → Bool) (pa : Nat)
    (hpg : pa % PGSIZE = 0) (hlt : pa < memEnd)
    (hwf : walkFails (ptov pa) = true) :
    paging_init false walkFails memEnd ks ke =
      Except.error "PANIC: palloc_get: out of pages" ∧
    ∃ es, paging_init true walkFails memEnd ks ke = Except.ok es ∧
      (∀ e, (ptov pa, e) ∉ es) ∧
      (∀ pa', pa' % PGSIZE = 0 → pa' < memEnd → walkFails (ptov pa') = false →
        (ptov pa', pteFor ks ke pa') ∈ es) := by
  refine ⟨rfl, _, rfl, ?_, ?_⟩
  · intro e hmem
    have := pagingInitEntries_walk_ok hmem
    rw [hwf] at this
    exact absurd this (by decide)
  · intro pa' h1 h2 h3
    exact mem_pagingInitEntries h1 h2 h3

/-- Witness for C2: memory top 8192, walk failing exactly at `ptov 0`;
physical address 0 is skipped while 4096 is still mapped. -/
theorem claim_C2_witness :
    ((0 : Nat) % PGSIZE = 0 ∧ (0 : Nat) < 8192 ∧
      (fun va => va == KERN_BASE) (ptov 0) = true) ∧
    (paging_init false (fun va => va == KERN_BASE) 8192 0 0 =
        Except.error "PANIC: palloc_get: out of pages" ∧
      ∃ es, paging_init true (fun va => va == KERN_BASE) 8192 0 0 =
          Except.ok es ∧
        (∀ e, (ptov 0, e) ∉ es) ∧
        (∀ pa', pa' % PGSIZE = 0 → pa' < 8192 →
          (fun va => va == KERN_BASE) (ptov pa') = false →
          (ptov pa', pteFor 0 0 pa') ∈ es)) :=
  ⟨⟨by decide, by decide, by decide⟩,
    claim_C2 8192 0 0 (fun va => va == KERN_BASE) 0
      (by decide) (by decide) (by decide)⟩

/-! ## Claim C3

The claim's first half holds: a window whose third string's terminator is
the last window byte is accepted.  Its second half fails on the code: with
the window one byte shorter the cursor still sits strictly before the window
end when the third (now unterminated) string is read, `strnlen` caps the
scan at the window end, and the loop completes — the overflow panic fires
only when the cursor has already reached the window end before a declared
element is read. -/

/-- C3 counterexample.  Window `"a\0b\0c\0"` with count 3 succeeds (the
claim and the code agree).  Shortened by one byte to `"a\0b\0c"` the claim
demands the overflow halt, but `read_command_line` still succeeds, returning
the same three offsets (the third string is merely unterminated). -/
theorem claim_C3_counterexample :
    read_command_line ['a', NUL, 'b', NUL, 'c'] 3 = Except.ok [0, 2, 4] ∧
    read_command_line ['a', NUL, 'b', NUL, 'c'] 3 ≠
      Except.error "command line arguments overflow" := by
  have h1 : read_command_line ['a', NUL, 'b', NUL, 'c'] 3 = Except.ok [0, 2, 4] := rfl
  refine ⟨h1, ?_⟩
  rw [h1]
  exact fun h => Except.noConfusion h

/-- C3 as amended: with a declared count of 3, a window whose third string's
terminator lands exactly at the window end succeeds; one byte shorter, the
fatal "command line arguments overflow" halt occurs only when the shortened
window is exhausted before the third string begins (third string empty) —
with a non-empty third string the shortened window is still accepted, the
third argument left unterminated. -/
theorem claim_C3 :
    read_command_line ['a', NUL, 'b', NUL, 'c', NUL] 3 = Except.ok [0, 2, 4] ∧
    read_command_line ['a', NUL, 'b', NUL, 'c'] 3 = Except.ok [0, 2, 4] ∧
    read_command_line ['a', NUL, 'b', NUL, NUL] 3 = Except.ok [0, 2, 4] ∧
    read_command_line ['a', NUL, 'b', NUL] 3 =
      Except.error "command line arguments overflow" :=
  ⟨rfl, rfl, rfl, rfl⟩

/-! ## Claim C5

The claim says `paging_init` precedes every other allocation and every
external subsystem start-up call.  In `main` it does not: `thread_init`,
`console_init`, `palloc_init` (which returns memory top) and `malloc_init`
are all called first — `paging_init` even depends on them, obtaining its
root frame from the already initialized page allocator. -/

/-- C5 counterexample.  In the boot sequence of `main`, the subsystem
start-up calls `thread_init` and `console_init` and the allocator set-up
calls `palloc_init` and `malloc_init` all precede `paging_init`. -/
theorem claim_C5_counterexample :
    (main_trace true).indexOf .thread_init < (main_trace true).indexOf .paging_init ∧
    (main_trace true).indexOf .console_init < (main_trace true).indexOf .paging_init ∧
    (main_trace true).indexOf .palloc_init < (main_trace true).indexOf .paging_init ∧
    (main_trace true).indexOf .malloc_init < (main_trace true).indexOf .paging_init := by
  decide

/-- C5 as amended: in the boot sequence of `main`, `paging_init` runs after
`bss_init`, the command-line extraction, option parsing, `thread_init`,
`console_init`, `palloc_init` and `malloc_init`, but before every remaining
external subsystem start-up call (`tss_init` through `vm_init`) and before
the action script runs — on both the power-off and the thread-exit ending
of the sequence. -/
theorem claim_C5 : ∀ b : Bool,
    (main_trace b).indexOf .bss_init < (main_trace b).indexOf .paging_init ∧
    (main_trace b).indexOf .read_command_line < (main_trace b).indexOf .paging_init ∧
    (main_trace b).indexOf .parse_options < (main_trace b).indexOf .paging_init ∧
    (main_trace b).indexOf .thread_init < (main_trace b).indexOf .paging_init ∧
    (main_trace b).indexOf .console_init < (main_trace b).indexOf .paging_init ∧
    (main_trace b).indexOf .palloc_init < (main_trace b).indexOf .paging_init ∧
    (main_trace b).indexOf .malloc_init < (main_trace b).indexOf .paging_init ∧
    (main_trace b).indexOf .paging_init < (main_trace b).indexOf .tss_init ∧
    (main_trace b).indexOf .paging_init < (main_trace b).indexOf .gdt_init ∧
    (main_trace b).indexOf .paging_init < (main_trace b).indexOf .intr_init ∧
    (main_trace b).indexOf .paging_init < (main_trace b).indexOf .timer_init ∧
    (main_trace b).indexOf .paging_init < (main_trace b).indexOf .kbd_init ∧
    (main_trace b).indexOf .paging_init < (main_trace b).indexOf .input_init ∧
    (main_trace b).indexOf .paging_init < (main_trace b).indexOf .exception_init ∧
    (main_trace b).indexOf .paging_init < (main_trace b).indexOf .syscall_init ∧
    (main_trace b).indexOf .paging_init < (main_trace b).indexOf .thread_start ∧
    (main_trace b).indexOf .paging_init < (main_trace b).indexOf .serial_init_queue ∧
    (main_trace b).indexOf .paging_init < (main_trace b).indexOf .timer_calibrate ∧
    (main_trace b).indexOf .paging_init < (main_trace b).indexOf .disk_init ∧
    (main_trace b).indexOf .paging_init < (main_trace b).indexOf .filesys_init ∧
    (main_trace b).indexOf .paging_init < (main_trace b).indexOf .vm_init ∧
    (main_trace b).indexOf .paging_init < (main_trace b).indexOf .run_actions := by
  decide

/-- Unfolding lemma: the dispatch loop on an empty queue. -/
theorem run_actions_nil (tt : Bool) : run_actions tt [] = Except.ok [] := by
  rw [run_actions.eq_def]

/-- Unfolding lemma: one iteration of the dispatch loop when the head token
matches a table row. -/
theorem run_actions_cons (tt : Bool) (t : List Char) (rest : List (List Char))
    (a : ActionDesc) (ha : findAction t = some a) :
    run_actions tt (t :: rest) =
      if (t :: rest).length < a.argc then
        Except.error ("action `" ++ String.mk t ++ "' requires " ++
          toString (a.argc - 1) ++ " argument(s)")
      else
        match run_actions tt ((t :: rest).drop a.argc) with
        | Except.error m => Except.error m
        | Except.ok more => Except.ok (runHandler tt a.fn (t :: rest) ++ more) := by
  rw [run_actions.eq_def]
  split
  · rename_i h'
    exact absurd h' (by simp)
  · rename_i t' rest' h'
    injection h' with h1 h2
    subst h1
    subst h2
    split
    · rename_i hnone
      rw [ha] at hnone
      cases hnone
    · rename_i a' hsome
      rw [ha] at hsome
      injection hsome with h''
      subst h''
      rfl

/-- Witness for C5, instantiated on the power-off ending of the boot
sequence. -/
theorem claim_C5_witness :
    (main_trace true).indexOf .thread_init < (main_trace true).indexOf .paging_init ∧
    (main_trace true).indexOf .paging_init < (main_trace true).indexOf .run_actions :=
  ⟨(claim_C5 true).2.2.2.1, (claim_C5 true).2.2.2.2.2.2.2.2.2.2.2.2.2.2.2.2.2.2.2.2.2⟩

/-! ## Claim C7 -/

/-- C7.  On the action list `["run", "echoTest"]` with the self-test flag
(`thread_tests`) set, `run_actions` produces exactly one collaborator
invocation: `run_test ("echoTest")` — in particular the process-creation
collaborator is never invoked. -/
theorem claim_C7 :
    run_actions true ["run".toList, "echoTest".toList] =
      Except.ok [TaskCall.runTest "echoTest".toList] := by
  rw [run_actions_cons true _ _ ⟨"run".toList, 2, Handler.runTask⟩ (by decide)]
  norm_num
  rw [run_actions_nil]
  rfl

/-! ## Claim C8 -/

/-- C8.  `run_actions ["cat"]` (filesystem support compiled in, so `cat`
with arity 2 is in the table) halts with the fatal message
"action `cat' requires 1 argument(s)", whichever way the self-test flag is
set: only the name token is present, fewer than arity − 1 = 1 tokens
follow it. -/
theorem claim_C8 :
    run_actions true ["cat".toList] =
      Except.error "action `cat' requires 1 argument(s)" ∧
    run_actions false ["cat".toList] =
      Except.error "action `cat' requires 1 argument(s)" := by
  constructor
  · rw [run_actions_cons true _ _ ⟨"cat".toList, 2, Handler.fsutilCat⟩ (by decide)]
    norm_num
    rfl
  · rw [run_actions_cons false _ _ ⟨"cat".toList, 2, Handler.fsutilCat⟩ (by decide)]
    norm_num
    rfl

/-! ## Claim C10 -/

/-- C10.  A recognized numeric flag given as a bare token — no `'='`, no
value (`"-rs"`, and likewise `"-ul"`) — makes the second `strtok_r` return
`NULL`, and the scan reaches `atoi (value)` with `value == NULL`: the
numeric branch is unguarded, so the execution is not total.  In the
embedding that undefined null dereference is the distinguished outcome
`nullDeref`, and it is reached whatever the prior configuration and
whatever tokens follow. -/
theorem claim_C10 (cfg : BootConfig) (rest : List (List Char)) :
    parse_options cfg ("-rs".toList :: rest) = ParseResult.nullDeref ∧
    parse_options cfg ("-ul".toList :: rest) = ParseResult.nullDeref := by
  constructor
  · rfl
  · rfl

/-- Witness for C10: the bare token `"-rs"` from the default configuration
with nothing following. -/
theorem claim_C10_witness :
    parse_options {} ["-rs".toList] = ParseResult.nullDeref :=
  (claim_C10 {} []).1

/-! ## Claim C6 -/

/-- The option loop consumes a maximal leading run of flag-marker tokens:
whenever it returns normally, the input splits into a consumed head, every
token of which begins with `'-'`, followed by the returned remainder, whose
first token (if any) does not. -/
theorem parse_options_stop :
    ∀ (argv : List (List Char)) (cfg cfg' : BootConfig) (rest : List (List Char)),
      parse_options cfg argv = ParseResult.ok cfg' rest →
      ∃ pre, argv = pre ++ rest ∧ (∀ t ∈ pre, startsDash t = true) ∧
        (rest = [] ∨ ∃ t ts, rest = t :: ts ∧ startsDash t = false) := by
  intro argv
  induction argv with
  | nil =>
    intro cfg cfg' rest h
    simp only [parse_options] at h
    injection h with h1 h2
    subst h1
    subst h2
    exact ⟨[], rfl, by simp, Or.inl rfl⟩
  | cons t r ih =>
    intro cfg cfg' rest h
    simp only [parse_options] at h
    by_cases hd : startsDash t = true
    · rw [if_pos hd] at h
      rcases hsp : splitAtEq t with ⟨n, v⟩
      simp only [hsp] at h
      rcases hap : applyOption cfg n v with cfg'' | _ | m | _
      · simp only [hap] at h
        obtain ⟨pre, hpre, hall, hrest⟩ := ih cfg'' cfg' rest h
        refine ⟨t :: pre, by simp [hpre], ?_, hrest⟩
        intro x hx
        rcases hx with _ | hx
        · exact hd
        · exact hall x (by assumption)
      · simp only [hap] at h
        cases h
      · simp only [hap] at h
        cases h
      · simp only [hap] at h
        cases h
    · rw [if_neg hd] at h
      injection h with h1 h2
      subst h1
      subst h2
      exact ⟨[], rfl, by simp, Or.inr ⟨t, r, rfl, by simpa using hd⟩⟩

/-- C6.  `parse_options` on `["-q", "-rs=1234", "run", "a"]` (from the
default configuration) sets `power_off_when_done`, applies the seed-1234
side effect (`random_init (atoi ("1234"))`), and returns the remainder
`["run", "a"]`; and in general the scan stops at the first token that is
null (the vector's end) or does not begin with the flag marker, returning
exactly that unconsumed remainder. -/
theorem claim_C6 :
    parse_options {} ["-q".toList, "-rs=1234".toList, "run".toList, "a".toList] =
      ParseResult.ok { power_off_when_done := true, random_seed := some 1234 }
        ["run".toList, "a".toList] ∧
    ∀ (cfg cfg' : BootConfig) (argv rest : List (List Char)),
      parse_options cfg argv = ParseResult.ok cfg' rest →
      ∃ pre, argv = pre ++ rest ∧ (∀ t ∈ pre, startsDash t = true) ∧
        (rest = [] ∨ ∃ t ts, rest = t :: ts ∧ startsDash t = false) :=
  ⟨by decide, fun cfg cfg' argv rest h => parse_options_stop argv cfg cfg' rest h⟩

/-- Witness for C6's general part, at the one-token vector `["run"]` (no
flag marker: nothing is consumed and the whole vector is returned). -/
theorem claim_C6_witness :
    parse_options {} ["run".toList] = ParseResult.ok {} ["run".toList] ∧
    (∃ pre, ["run".toList] = pre ++ ["run".toList] ∧
      (∀ t ∈ pre, startsDash t = true) ∧
      (["run".toList] = ([] : List (List Char)) ∨
        ∃ t ts, ["run".toList] = t :: ts ∧ startsDash t = false)) :=
  ⟨rfl, claim_C6.2 {} {} ["run".toList] ["run".toList] rfl⟩

/-! ## Claim C9 -/

/-- C9.  Option application is order-preserving and last-wins.  For the two
value-carrying flags (`-rs`, `-ul`), scanning a vector in which the same
flag occurs twice with (possibly different, non-empty) values produces
exactly the state produced by the second occurrence alone — the
configuration, the seed side effect and the returned remainder all equal
those of the last applied value; the valueless flags are idempotent the
same way. -/
theorem claim_C9 (cfg : BootConfig) (rest : List (List Char)) (v1 v2 : List Char)
    (h1 : v1 ≠ []) (h2 : v2 ≠ []) :
    parse_options cfg (("-rs=".toList ++ v1) :: ("-rs=".toList ++ v2) :: rest) =
      parse_options cfg (("-rs=".toList ++ v2) :: rest) ∧
    parse_options cfg (("-ul=".toList ++ v1) :: ("-ul=".toList ++ v2) :: rest) =
      parse_options cfg (("-ul=".toList ++ v2) :: rest) ∧
    parse_options cfg ("-q".toList :: "-q".toList :: rest) =
      parse_options cfg ("-q".toList :: rest) ∧
    parse_options cfg ("-f".toList :: "-f".toList :: rest) =
      parse_options cfg ("-f".toList :: rest) ∧
    parse_options cfg ("-mlfqs".toList :: "-mlfqs".toList :: rest) =
      parse_options cfg ("-mlfqs".toList :: rest) ∧
    parse_options cfg ("-threads-tests".toList :: "-threads-tests".toList :: rest) =
      parse_options cfg ("-threads-tests".toList :: rest) := by
  obtain ⟨c1, cs1, rfl⟩ := List.exists_cons_of_ne_nil h1
  obtain ⟨c2, cs2, rfl⟩ := List.exists_cons_of_ne_nil h2
  exact ⟨rfl, rfl, rfl, rfl, rfl, rfl⟩

/-- Witness for C9: seed values 1 then 2, empty remainder, default
configuration. -/
theorem claim_C9_witness :
    ("1".toList ≠ ([] : List Char)) ∧ ("2".toList ≠ ([] : List Char)) ∧
    parse_options {} (("-rs=".toList ++ "1".toList) ::
        ("-rs=".toList ++ "2".toList) :: []) =
      parse_options {} (("-rs=".toList ++ "2".toList) :: []) :=
  ⟨by decide, by decide,
    (claim_C9 {} [] "1".toList "2".toList (by decide) (by decide)).1⟩

/-! ## Claim C4

The claim says the boot-argument window is read-only to this core.  It is
not: `parse_options` splits each consumed option token in place with
`strtok_r`, which stores a NUL over the token's first `'='` byte.  The
counterexample exhibits the write; the amended theorem characterises it —
every byte the scan changes was an `'='` and becomes NUL, and no other byte
of the window is touched (the extractor and the dispatcher only read). -/

theorem getElem?_drop_add (l : List α) (n i : Nat) : (l.drop n)[i]? = l[n + i]? := by
  induction n generalizing l with
  | zero => simp
  | succ n ih =>
    cases l with
    | nil => simp
    | cons c cs => simpa [Nat.succ_add] using ih cs

theorem getElem?_of_takeWhile {p : α → Bool} {l : List α} {j : Nat} {c : α}
    (h : (l.takeWhile p)[j]? = some c) : l[j]? = some c := by
  obtain ⟨t2, ht⟩ := List.takeWhile_prefix (l := l) p
  have hj : j < (l.takeWhile p).length := (List.getElem?_eq_some_iff.mp h).1
  rw [← ht, List.getElem?_append_left hj]
  exact h

theorem eqIndex_getElem? :
    ∀ {t : List Char} {j : Nat}, eqIndex t = some j → t[j]? = some '=' := by
  intro t
  induction t with
  | nil => intro j h; cases h
  | cons c cs ih =>
    intro j h
    simp only [eqIndex] at h
    by_cases hc : c = '='
    · rw [if_pos hc] at h
      injection h with h'
      subst h'
      simp [hc]
    · rw [if_neg hc] at h
      rcases ho : eqIndex cs with _ | j'
      · rw [ho] at h
        cases h
      · rw [ho] at h
        simp at h
        subst h
        simpa using ih ho

/-- The byte position where `strtok_r` stores its NUL really holds `'='` in
the window: position `off + j` when the token at offset `off` has its first
`'='` at token index `j`. -/
theorem strAt_eq_byte {w : List Char} {off j : Nat}
    (h : eqIndex (strAt w off) = some j) : w[off + j]? = some '=' := by
  have h1 : (strAt w off)[j]? = some '=' := eqIndex_getElem? h
  simp only [strAt] at h1
  have h2 := getElem?_of_takeWhile h1
  rw [getElem?_drop_add] at h2
  exact h2

/-- Relation between window states across the option scan: every byte is
unchanged, or was `'='` and is now NUL. -/
abbrev WinEvolves (w w' : List Char) : Prop :=
  ∀ i : Nat, w'[i]? = w[i]? ∨ (w[i]? = some '=' ∧ w'[i]? = some NUL)

theorem winEvolves_refl (w : List Char) : WinEvolves w w :=
  fun _ => Or.inl rfl

theorem winEvolves_trans {w1 w2 w3 : List Char}
    (a : WinEvolves w1 w2) (b : WinEvolves w2 w3) : WinEvolves w1 w3 := by
  intro i
  rcases b i with hb | ⟨hb1, hb2⟩
  · rcases a i with ha | ⟨ha1, ha2⟩
    · exact Or.inl (hb.trans ha)
    · refine Or.inr ⟨ha1, ?_⟩
      rw [hb, ha2]
  · rcases a i with ha | ⟨ha1, ha2⟩
    · refine Or.inr ⟨?_, hb2⟩
      rw [← ha, hb1]
    · rw [ha2] at hb1
      exact absurd hb1 (by decide)

theorem winEvolves_set {w : List Char} {p : Nat} (h : w[p]? = some '=') :
    WinEvolves w (w.set p NUL) := by
  intro i
  by_cases hip : p = i
  · subst hip
    exact Or.inr ⟨h, List.getElem?_set_self (List.getElem?_eq_some_iff.mp h).1⟩
  · exact Or.inl (List.getElem?_set_ne hip)

/-- The option scan only ever turns `'='` bytes of the window into NUL. -/
theorem parse_options_mem_evolves :
    ∀ (offs : List Nat) (cfg : BootConfig) (w : List Char),
      WinEvolves w (parse_options_mem cfg w offs).1 := by
  intro offs
  induction offs with
  | nil => intro cfg w; exact winEvolves_refl w
  | cons off rest ih =>
    intro cfg w
    simp only [parse_options_mem]
    by_cases hd : startsDash (strAt w off) = true
    · rw [if_pos hd]
      rcases hsp : splitAtEq (strAt w off) with ⟨n, v⟩
      simp only [hsp]
      rcases he : eqIndex (strAt w off) with _ | j <;> simp only [he]
      · rcases hap : applyOption cfg n v with cfg' | _ | m | _ <;> simp only [hap]
        · exact ih cfg' w
        · exact winEvolves_refl w
        · exact winEvolves_refl w
        · exact winEvolves_refl w
      · have hset : WinEvolves w (w.set (off + j) NUL) :=
          winEvolves_set (strAt_eq_byte he)
        rcases hap : applyOption cfg n v with cfg' | _ | m | _ <;> simp only [hap]
        · exact winEvolves_trans hset (ih cfg' _)
        · exact hset
        · exact hset
        · exact hset
    · rw [if_neg hd]
      exact winEvolves_refl w

/-- C4 counterexample.  A window holding the single option token
`"-rs=1234"` (extracted by `read_command_line` with count 1) is written by
`parse_options`: byte 3 of the window held `'='` and holds NUL after the
scan — the window the ArgVector points into is not read-only to this
core. -/
theorem claim_C4_counterexample :
    read_command_line "-rs=1234\x00".toList 1 = Except.ok [0] ∧
    ("-rs=1234\x00".toList)[3]? = some '=' ∧
    (parse_options_mem {} "-rs=1234\x00".toList [0]).1[3]? = some NUL ∧
    (parse_options_mem {} "-rs=1234\x00".toList [0]).1 ≠ "-rs=1234\x00".toList := by
  refine ⟨rfl, by decide, by decide, by decide⟩

/-- C4 as amended: the window is read-only to `read_command_line` and
`run_actions` (they only inspect it), but not to `parse_options`: `strtok_r`
overwrites the first `'='` byte of each consumed option token with NUL.
That is the only mutation — after any scan, every window byte is either
unchanged or was an `'='` that became NUL. -/
theorem claim_C4 :
    (("-rs=1234\x00".toList)[3]? = some '=' ∧
      (parse_options_mem {} "-rs=1234\x00".toList [0]).1[3]? = some NUL) ∧
    ∀ (cfg : BootConfig) (w : List Char) (offs : List Nat) (i : Nat),
      (parse_options_mem cfg w offs).1[i]? = w[i]? ∨
        (w[i]? = some '=' ∧ (parse_options_mem cfg w offs).1[i]? = some NUL) :=
  ⟨⟨by decide, by decide⟩, fun cfg w offs i => parse_options_mem_evolves offs cfg w i⟩

end PintosBoot
